import Mathlib

/-!
Verification of the NVI_ETL pipeline (main.go) against its design document.

The development shallowly embeds the function runETL (main.go, lines 111-173)
together with the SQL strings it issues.  The database drivers are modeled as
an environment: the outcome of sourceDB.Query, targetDB.Begin, tx.Prepare,
each rows.Next/rows.Scan step, each stmt.Exec call, rows.Err and tx.Commit
are inputs; the Go control flow over those outcomes is translated verbatim.
The target table is an association list keyed by the fsno column; the only
database behavior baked into the model is the ON CONFLICT (fsno) DO NOTHING
clause of the prepared insert (a key already present makes the insert a
no-op), exactly as the insert statement declares.  Any other insert failure
(constraint violation, type mismatch, connectivity loss) is a hard error
supplied by the environment.
-/

/-- Driver-level database error, abstracted as its message string
(the `%w`-wrapped error in main.go). -/
abbrev DBErr := String

/-- Mirror of the scanned row of runETL (main.go lines 142-144): twelve
nullable holders, sql.NullString and friends modeled as Option.  The
float64 payloads (sql.NullFloat64) and the timestamp (sql.NullTime) are
carried opaquely as Int: the pipeline performs no arithmetic on them,
it only passes them from rows.Scan to stmt.Exec unchanged. -/
structure DataRow where
  fsno : Option String
  salestype : Option String
  attachmentno : Option String
  customer : Option String
  region : Option String
  date : Option Int
  code : Option String
  name : Option String
  measurementunit : Option String
  unitprice : Option Int
  soldquantity : Option Int
  netpay : Option Int
  deriving DecidableEq, Repr

/-- The target table SalesDB: an association list from the primary-key
column fsno to the stored row. -/
abbrev Table := List (Option String × DataRow)

/-- Lookup by primary key in the target table. -/
def tlookup : Table → Option String → Option DataRow
  | [], _ => none
  | (k, v) :: rest, key => if k = key then some v else tlookup rest key

/-- Semantics of one stmt.Exec of the prepared insert
(INSERT ... ON CONFLICT (fsno) DO NOTHING, main.go lines 127-130):
if the key is already present the insert does nothing, otherwise the row
is stored under its fsno. -/
def execInsert (t : Table) (r : DataRow) : Table :=
  if (tlookup t r.fsno).isSome then t else t ++ [(r.fsno, r)]

/-- One iteration of the rows.Next loop, as the environment presents it:
either rows.Scan fails with a driver error, or it decodes a row and the
subsequent stmt.Exec either succeeds (hard = none, conflicts included)
or fails with a hard driver error (hard = some w). -/
inductive RowEvent
  | scanFail (w : DBErr)
  | scanned (r : DataRow) (hard : Option DBErr)
  deriving DecidableEq, Repr

/-- Whether the event is a decoded row whose insert returns a hard error. -/
def eventHard : RowEvent → Bool
  | RowEvent.scanned _ (some _) => true
  | _ => false

/-- Whether the event is a rows.Scan failure. -/
def isScanFail : RowEvent → Bool
  | RowEvent.scanFail _ => true
  | _ => false

/-- The successfully decoded rows of an event sequence, in order. -/
def decodedRows : List RowEvent → List DataRow
  | [] => []
  | RowEvent.scanFail _ :: rest => decodedRows rest
  | RowEvent.scanned r _ :: rest => r :: decodedRows rest

/-- The errors runETL can return, one per fmt.Errorf site
(main.go lines 117, 123, 134, 159, 165, 169), each wrapping the driver
error.  Note the exec-failure error wraps only the driver error. -/
inductive ETLError
  | queryFailed (w : DBErr)
  | beginFailed (w : DBErr)
  | prepareFailed (w : DBErr)
  | execFailed (w : DBErr)
  | rowsFailed (w : DBErr)
  | commitFailed (w : DBErr)
  deriving DecidableEq, Repr

/-- The log lines runETL emits inside the loop: the scan-skip warning
(main.go line 150, carrying totalRows+1 and the scan error) and the
insert-failure line (main.go line 158, carrying fsno.String, which is
the empty string when the holder is NULL). -/
inductive LogEntry
  | scanSkip (count : Nat) (w : DBErr)
  | insertFail (fsno : String)
  deriving DecidableEq, Repr

/-- Whether a log entry is the scan-skip warning. -/
def isScanSkipLog : LogEntry → Bool
  | LogEntry.scanSkip _ _ => true
  | _ => false

/-- The database calls runETL performs, in order, for instrumentation of
the control flow: source query, Begin, Prepare, each stmt.Exec, Commit,
and the deferred tx.Rollback (which runs on every exit path after a
successful Begin and Prepare, and is a no-op after a successful Commit). -/
inductive TxAction
  | querySrc
  | beginTx
  | prepareStmt
  | execRow (r : DataRow)
  | commitTx
  | rollbackTx
  deriving DecidableEq, Repr

/-- Environment of one runETL call: the outcomes the two database drivers
hand back at each call site. -/
structure Env where
  queryErr : Option DBErr
  beginErr : Option DBErr
  prepareErr : Option DBErr
  events : List RowEvent
  rowsErr : Option DBErr
  commitErr : Option DBErr
  deriving DecidableEq, Repr

/-- State reached when the rows.Next loop exits: the transaction-local
view of the table, totalRows, the emitted log lines, the exec calls
performed, and the hard insert error when the loop aborted. -/
structure LoopState where
  txTable : Table
  count : Nat
  logs : List LogEntry
  trace : List TxAction
  hardErr : Option DBErr
  deriving DecidableEq, Repr

/-- The rows.Next loop of runETL (main.go lines 141-162): a scan failure
logs a warning with totalRows+1 and continues; a decoded row is handed to
stmt.Exec; a hard exec error logs the fsno and aborts the loop at once;
otherwise totalRows is incremented and the loop continues. -/
def loadLoop (t : Table) (c : Nat) (l : List LogEntry) (tr : List TxAction) :
    List RowEvent → LoopState
  | [] => ⟨t, c, l, tr, none⟩
  | RowEvent.scanFail w :: rest =>
      loadLoop t c (l ++ [LogEntry.scanSkip (c + 1) w]) tr rest
  | RowEvent.scanned r (some w) :: _ =>
      ⟨t, c, l ++ [LogEntry.insertFail (r.fsno.getD "")],
        tr ++ [TxAction.execRow r], some w⟩
  | RowEvent.scanned r none :: rest =>
      loadLoop (execInsert t r) (c + 1) l (tr ++ [TxAction.execRow r]) rest

/-- Result of one runETL call: the returned count and error, the state of
the target table after the call (committed state: the transaction-local
inserts survive only when Commit succeeded), the log lines, and the trace
of database calls. -/
structure ETLResult where
  count : Nat
  error : Option ETLError
  table : Table
  logs : List LogEntry
  trace : List TxAction
  deriving DecidableEq, Repr

/-- Shallow embedding of runETL (main.go lines 111-173).  The control flow
is translated verbatim: a query error returns (0, error) before Begin; a
Begin error returns (0, error); a Prepare error returns (0, error) and the
deferred Rollback fires; then the rows.Next loop runs; a hard exec error
returns (totalRows, error) with rollback; a rows.Err error likewise; a
Commit error likewise; otherwise the transaction commits and
(totalRows, nil) is returned.  The table field is the committed state:
it changes only on the success path. -/
def runETL (db : Table) (env : Env) : ETLResult :=
  match env.queryErr with
  | some w => ⟨0, some (ETLError.queryFailed w), db, [], [TxAction.querySrc]⟩
  | none =>
    match env.beginErr with
    | some w =>
        ⟨0, some (ETLError.beginFailed w), db, [],
          [TxAction.querySrc, TxAction.beginTx]⟩
    | none =>
      match env.prepareErr with
      | some w =>
          ⟨0, some (ETLError.prepareFailed w), db, [],
            [TxAction.querySrc, TxAction.beginTx, TxAction.prepareStmt,
              TxAction.rollbackTx]⟩
      | none =>
        let s := loadLoop db 0 [] [] env.events
        let base := TxAction.querySrc :: TxAction.beginTx ::
          TxAction.prepareStmt :: s.trace
        match s.hardErr with
        | some w =>
            ⟨s.count, some (ETLError.execFailed w), db, s.logs,
              base ++ [TxAction.rollbackTx]⟩
        | none =>
          match env.rowsErr with
          | some w =>
              ⟨s.count, some (ETLError.rowsFailed w), db, s.logs,
                base ++ [TxAction.rollbackTx]⟩
          | none =>
            match env.commitErr with
            | some w =>
                ⟨s.count, some (ETLError.commitFailed w), db, s.logs,
                  base ++ [TxAction.commitTx, TxAction.rollbackTx]⟩
            | none =>
                ⟨s.count, none, s.txTable, s.logs,
                  base ++ [TxAction.commitTx, TxAction.rollbackTx]⟩

/-- The source table constant of main.go. -/
def sourceTableName : String := "Sales"

/-- The target table constant of main.go. -/
def targetTableName : String := "SalesDB"

/-- The select list of the extraction query, in source order
(main.go line 113). -/
def selectColumns : List String :=
  ["fsno", "salestype", "attachmentno", "customer", "region", "date",
    "code", "name", "measurementunit", "unitprice", "soldquantity", "netpay"]

/-- The column list of the insert statement, in source order
(main.go line 128). -/
def insertColumns : List String :=
  ["fsno", "salestype", "attachmentno", "customer", "region", "sale_date",
    "code", "item_name", "measurement_unit", "unit_price", "sold_quantity",
    "net_pay"]

/-- The positional placeholders of the insert statement (main.go line 129). -/
def insertPlaceholders : List String :=
  ["$1", "$2", "$3", "$4", "$5", "$6", "$7", "$8", "$9", "$10", "$11", "$12"]

/-- The extraction query string built at main.go lines 112-114, with the
sourceTableName constant substituted for %s. -/
def extractQuery : String :=
  "\n\t\tSELECT fsno, salestype, attachmentno, customer, region, date, code, name, measurementunit, unitprice, soldquantity, netpay\n\t\tFROM "
    ++ sourceTableName ++ " ORDER BY fsno"

/-- The insert statement string built at main.go lines 127-130, with the
targetTableName constant substituted for %s. -/
def insertSQL : String :=
  "\n\t\tINSERT INTO " ++ targetTableName
    ++ " (fsno, salestype, attachmentno, customer, region, sale_date, code, item_name, measurement_unit, unit_price, sold_quantity, net_pay)\n\t\tVALUES ($1, $2, $3, $4, $5, $6, $7, $8, $9, $10, $11, $12)\n\t\tON CONFLICT (fsno) DO NOTHING"

/-- The twelve logical fields of a sales record, one per column. -/
inductive SalesField
  | fsno
  | salestype
  | attachmentno
  | customer
  | region
  | date
  | code
  | name
  | measurementunit
  | unitprice
  | soldquantity
  | netpay
  deriving DecidableEq, Repr

/-- The canonical field order of the record. -/
def fieldOrder : List SalesField :=
  [SalesField.fsno, SalesField.salestype, SalesField.attachmentno, SalesField.customer,
    SalesField.region, SalesField.date, SalesField.code, SalesField.name, SalesField.measurementunit,
    SalesField.unitprice, SalesField.soldquantity, SalesField.netpay]

/-- Which logical field a source column name denotes. -/
def sourceColField : String → Option SalesField
  | "fsno" => some SalesField.fsno
  | "salestype" => some SalesField.salestype
  | "attachmentno" => some SalesField.attachmentno
  | "customer" => some SalesField.customer
  | "region" => some SalesField.region
  | "date" => some SalesField.date
  | "code" => some SalesField.code
  | "name" => some SalesField.name
  | "measurementunit" => some SalesField.measurementunit
  | "unitprice" => some SalesField.unitprice
  | "soldquantity" => some SalesField.soldquantity
  | "netpay" => some SalesField.netpay
  | _ => none

/-- Which logical field a target column name denotes. -/
def targetColField : String → Option SalesField
  | "fsno" => some SalesField.fsno
  | "salestype" => some SalesField.salestype
  | "attachmentno" => some SalesField.attachmentno
  | "customer" => some SalesField.customer
  | "region" => some SalesField.region
  | "sale_date" => some SalesField.date
  | "code" => some SalesField.code
  | "item_name" => some SalesField.name
  | "measurement_unit" => some SalesField.measurementunit
  | "unit_price" => some SalesField.unitprice
  | "sold_quantity" => some SalesField.soldquantity
  | "net_pay" => some SalesField.netpay
  | _ => none

/-- The scan destinations of rows.Scan, in source order
(main.go lines 146-148). -/
def scanDestFields : List SalesField :=
  [SalesField.fsno, SalesField.salestype, SalesField.attachmentno, SalesField.customer,
    SalesField.region, SalesField.date, SalesField.code, SalesField.name, SalesField.measurementunit,
    SalesField.unitprice, SalesField.soldquantity, SalesField.netpay]

/-- The arguments handed to stmt.Exec, in source order
(main.go lines 154-156). -/
def execArgFields : List SalesField :=
  [SalesField.fsno, SalesField.salestype, SalesField.attachmentno, SalesField.customer,
    SalesField.region, SalesField.date, SalesField.code, SalesField.name, SalesField.measurementunit,
    SalesField.unitprice, SalesField.soldquantity, SalesField.netpay]

/-- Ordering on the nullable fsno key used to model ORDER BY fsno:
SQL NULLs sort together (first), present keys ascending by string order. -/
def keyLE : Option String → Option String → Prop
  | none, _ => True
  | some _, none => False
  | some x, some y => x ≤ y

instance : DecidableRel keyLE := fun a b =>
  match a, b with
  | none, _ => Decidable.isTrue trivial
  | some _, none => Decidable.isFalse id
  | some x, some y => inferInstanceAs (Decidable (x ≤ y))

/-- The row ordering induced by the fsno key. -/
def fsnoRel (a b : DataRow) : Prop := keyLE a.fsno b.fsno

instance : DecidableRel fsnoRel := fun a b =>
  inferInstanceAs (Decidable (keyLE a.fsno b.fsno))

instance : IsTotal DataRow fsnoRel where
  total a b := by
    unfold fsnoRel
    rcases a.fsno with _ | x
    · exact Or.inl trivial
    · rcases b.fsno with _ | y
      · exact Or.inr trivial
      · exact le_total x y

instance : IsTrans DataRow fsnoRel where
  trans a b c := by
    unfold fsnoRel
    rcases a.fsno with _ | x
    · exact fun _ _ => trivial
    · rcases b.fsno with _ | y
      · exact fun h _ => h.elim
      · rcases c.fsno with _ | z
        · exact fun _ h => h.elim
        · exact fun h1 h2 => le_trans h1 h2

/-- Semantics of the ORDER BY fsno clause of the extraction query: the
source engine returns the rows of the source table sorted ascending by
the fsno key. -/
def modelExtract (src : List DataRow) : List DataRow :=
  List.insertionSort fsnoRel src

/-- The scan-skip warnings the loop emits for an event sequence, given the
running count on entry. -/
def scanWarnings (c : Nat) : List RowEvent → List LogEntry
  | [] => []
  | RowEvent.scanFail w :: rest => LogEntry.scanSkip (c + 1) w :: scanWarnings c rest
  | RowEvent.scanned _ _ :: rest => scanWarnings (c + 1) rest

/-- A sample row with only the key present, used in concrete runs. -/
def mkRow (s : String) : DataRow :=
  ⟨some s, none, none, none, none, none, none, none, none, none, none, none⟩

/-- The environment of a run where the two stores misbehave nowhere:
query, Begin, Prepare and Commit succeed and the cursor closes cleanly;
the row events are the only variable part. -/
def cleanEnv (evs : List RowEvent) : Env :=
  ⟨none, none, none, evs, none, none⟩

theorem loadLoop_hardFree (evs : List RowEvent) :
    ∀ (t : Table) (c : Nat) (l : List LogEntry) (tr : List TxAction),
      evs.all (fun e => !eventHard e) = true →
      loadLoop t c l tr evs =
        ⟨List.foldl execInsert t (decodedRows evs),
          c + (decodedRows evs).length,
          l ++ scanWarnings c evs,
          tr ++ (decodedRows evs).map TxAction.execRow, none⟩ := by
  induction evs with
  | nil =>
    intro t c l tr _
    simp [loadLoop, decodedRows, scanWarnings]
  | cons e rest ih =>
    intro t c l tr h
    simp only [List.all_cons, Bool.and_eq_true] at h
    rcases e with w | ⟨r, hard⟩
    · simp only [loadLoop]
      rw [ih _ _ _ _ h.2]
      simp [decodedRows, scanWarnings, List.append_assoc]
    · cases hard with
      | some w => simp [eventHard] at h
      | none =>
        simp only [loadLoop]
        rw [ih _ _ _ _ h.2]
        simp [decodedRows, scanWarnings, List.append_assoc]
        omega

theorem loadLoop_append_hard (pre : List RowEvent) :
    ∀ (t : Table) (c : Nat) (l : List LogEntry) (tr : List TxAction)
      (r : DataRow) (w : DBErr) (rest : List RowEvent),
      pre.all (fun e => !eventHard e) = true →
      loadLoop t c l tr (pre ++ RowEvent.scanned r (some w) :: rest) =
        ⟨List.foldl execInsert t (decodedRows pre),
          c + (decodedRows pre).length,
          l ++ scanWarnings c pre ++ [LogEntry.insertFail (r.fsno.getD "")],
          tr ++ (decodedRows pre).map TxAction.execRow ++ [TxAction.execRow r],
          some w⟩ := by
  induction pre with
  | nil =>
    intro t c l tr r w rest _
    simp [loadLoop, decodedRows, scanWarnings]
  | cons e pre ih =>
    intro t c l tr r w rest h
    simp only [List.all_cons, Bool.and_eq_true] at h
    rcases e with w' | ⟨r', hard⟩
    · simp only [List.cons_append, loadLoop, List.append_eq]
      rw [ih _ _ _ _ _ _ _ h.2]
      simp [decodedRows, scanWarnings, List.append_assoc]
    · cases hard with
      | some _ => simp [eventHard] at h
      | none =>
        simp only [List.cons_append, loadLoop, List.append_eq]
        rw [ih _ _ _ _ _ _ _ h.2]
        simp [decodedRows, scanWarnings, List.append_assoc]
        omega

theorem loadLoop_hardErr_none (evs : List RowEvent) :
    ∀ (t : Table) (c : Nat) (l : List LogEntry) (tr : List TxAction),
      (loadLoop t c l tr evs).hardErr = none →
      evs.all (fun e => !eventHard e) = true := by
  induction evs with
  | nil => intro t c l tr _; rfl
  | cons e rest ih =>
    intro t c l tr h
    rcases e with w | ⟨r, hard⟩
    · simp only [loadLoop] at h
      have hr := ih _ _ _ _ h
      simp only [List.all_cons, Bool.and_eq_true]
      exact ⟨rfl, hr⟩
    · cases hard with
      | some w =>
        simp only [loadLoop] at h
        exact Option.noConfusion h
      | none =>
        simp only [loadLoop] at h
        have hr := ih _ _ _ _ h
        simp only [List.all_cons, Bool.and_eq_true]
        exact ⟨rfl, hr⟩

theorem scanWarnings_filter_length (evs : List RowEvent) :
    ∀ c : Nat,
      ((scanWarnings c evs).filter isScanSkipLog).length =
        (evs.filter isScanFail).length := by
  induction evs with
  | nil => intro c; rfl
  | cons e rest ih =>
    intro c
    rcases e with w | ⟨r, hard⟩
    · simp [scanWarnings, isScanFail, isScanSkipLog, ih]
    · simp [scanWarnings, isScanFail, ih]

theorem tlookup_append_isSome (t1 t2 : Table) (k : Option String)
    (h : (tlookup t1 k).isSome = true) :
    (tlookup (t1 ++ t2) k).isSome = true := by
  induction t1 with
  | nil => simp [tlookup] at h
  | cons p rest ih =>
    rcases p with ⟨k', v⟩
    by_cases hk : k' = k
    · simp [tlookup, hk]
    · simp only [tlookup, if_neg hk] at h
      simp only [List.cons_append, tlookup, if_neg hk]
      exact ih h

theorem tlookup_append_self (t : Table) (k : Option String) (v : DataRow)
    (h : tlookup t k = none) :
    tlookup (t ++ [(k, v)]) k = some v := by
  induction t with
  | nil => simp [tlookup]
  | cons p rest ih =>
    rcases p with ⟨k', v'⟩
    by_cases hk : k' = k
    · simp [tlookup, hk] at h
    · simp only [tlookup, if_neg hk] at h
      simp only [List.cons_append, tlookup, if_neg hk]
      exact ih h

theorem execInsert_key_isSome (t : Table) (r : DataRow) :
    (tlookup (execInsert t r) r.fsno).isSome = true := by
  unfold execInsert
  by_cases h : (tlookup t r.fsno).isSome = true
  · rw [if_pos h]; exact h
  · rw [if_neg h]
    rw [tlookup_append_self t r.fsno r (Option.not_isSome_iff_eq_none.mp h)]
    rfl

theorem execInsert_preserves_isSome (t : Table) (r : DataRow)
    (k : Option String) (h : (tlookup t k).isSome = true) :
    (tlookup (execInsert t r) k).isSome = true := by
  unfold execInsert
  by_cases hc : (tlookup t r.fsno).isSome = true
  · rw [if_pos hc]; exact h
  · rw [if_neg hc]; exact tlookup_append_isSome _ _ _ h

theorem execInsert_of_isSome (t : Table) (r : DataRow)
    (h : (tlookup t r.fsno).isSome = true) : execInsert t r = t := by
  unfold execInsert
  rw [if_pos h]

theorem foldl_execInsert_isSome (rs : List DataRow) :
    ∀ (t : Table) (k : Option String),
      (tlookup t k).isSome = true →
      (tlookup (List.foldl execInsert t rs) k).isSome = true := by
  induction rs with
  | nil => intro t k h; exact h
  | cons r rest ih =>
    intro t k h
    exact ih _ _ (execInsert_preserves_isSome _ _ _ h)

theorem foldl_execInsert_mem_key (rs : List DataRow) :
    ∀ (t : Table) (r : DataRow), r ∈ rs →
      (tlookup (List.foldl execInsert t rs) r.fsno).isSome = true := by
  induction rs with
  | nil => intro t r h; cases h
  | cons r0 rest ih =>
    intro t r h
    rcases List.mem_cons.mp h with h | h
    · subst h
      rw [List.foldl_cons]
      exact foldl_execInsert_isSome _ _ _ (execInsert_key_isSome _ _)
    · rw [List.foldl_cons]
      exact ih _ _ h

theorem foldl_execInsert_idem (rs : List DataRow) :
    ∀ t : Table, (∀ r ∈ rs, (tlookup t r.fsno).isSome = true) →
      List.foldl execInsert t rs = t := by
  induction rs with
  | nil => intro t _; rfl
  | cons r rest ih =>
    intro t h
    rw [List.foldl_cons, execInsert_of_isSome t r (h r (List.mem_cons_self _ _))]
    exact ih t (fun r' hr' => h r' (List.mem_cons_of_mem _ hr'))

theorem foldl_execInsert_twice (t : Table) (rs : List DataRow) :
    List.foldl execInsert (List.foldl execInsert t rs) rs =
      List.foldl execInsert t rs :=
  foldl_execInsert_idem rs _ (fun r hr => foldl_execInsert_mem_key rs t r hr)

theorem mem_execInsert (t : Table) (r : DataRow) (p : Option String × DataRow)
    (hp : p ∈ execInsert t r) : p ∈ t ∨ p = (r.fsno, r) := by
  unfold execInsert at hp
  by_cases h : (tlookup t r.fsno).isSome = true
  · rw [if_pos h] at hp; exact Or.inl hp
  · rw [if_neg h] at hp
    rcases List.mem_append.mp hp with h' | h'
    · exact Or.inl h'
    · exact Or.inr (by simpa using h')

theorem mem_foldl_execInsert (rs : List DataRow) :
    ∀ (t : Table) (p : Option String × DataRow),
      p ∈ List.foldl execInsert t rs →
      p ∈ t ∨ (p.2 ∈ rs ∧ p.2.fsno = p.1) := by
  induction rs with
  | nil => intro t p hp; exact Or.inl hp
  | cons r rest ih =>
    intro t p hp
    rw [List.foldl_cons] at hp
    rcases ih _ _ hp with h | h
    · rcases mem_execInsert _ _ _ h with h' | h'
      · exact Or.inl h'
      · subst h'
        exact Or.inr ⟨List.mem_cons_self _ _, rfl⟩
    · exact Or.inr ⟨List.mem_cons_of_mem _ h.1, h.2⟩

theorem runETL_clean (db : Table) (evs : List RowEvent)
    (h : evs.all (fun e => !eventHard e) = true) :
    runETL db (cleanEnv evs) =
      ⟨(decodedRows evs).length, none,
        List.foldl execInsert db (decodedRows evs),
        scanWarnings 0 evs,
        TxAction.querySrc :: TxAction.beginTx :: TxAction.prepareStmt ::
          (decodedRows evs).map TxAction.execRow ++
            [TxAction.commitTx, TxAction.rollbackTx]⟩ := by
  simp [runETL, cleanEnv, loadLoop_hardFree evs db 0 [] [] h]

theorem runETL_hard (db : Table) (pre rest : List RowEvent) (r : DataRow)
    (w : DBErr) (re ce : Option DBErr)
    (h : pre.all (fun e => !eventHard e) = true) :
    runETL db ⟨none, none, none,
        pre ++ RowEvent.scanned r (some w) :: rest, re, ce⟩ =
      ⟨(decodedRows pre).length, some (ETLError.execFailed w), db,
        scanWarnings 0 pre ++ [LogEntry.insertFail (r.fsno.getD "")],
        TxAction.querySrc :: TxAction.beginTx :: TxAction.prepareStmt ::
          ((decodedRows pre).map TxAction.execRow ++ [TxAction.execRow r]) ++
            [TxAction.rollbackTx]⟩ := by
  simp [runETL, loadLoop_append_hard pre db 0 [] [] r w rest h,
    List.append_assoc]

/-- C1: Atomicity of the load: when the insert for the (k+1)-th
successfully-decoded row returns a hard error (the first k decoded rows
having been handed to the statement without a hard error), runETL leaves
the committed target table exactly as it was before the run (full
rollback, zero rows from that run committed), returns the count k of
rows processed before the failure together with the exec error, and its
call trace shows a rollback and no commit. -/
theorem runETL_atomicity (db : Table) (pre rest : List RowEvent)
    (r : DataRow) (w : DBErr)
    (hpre : pre.all (fun e => !eventHard e) = true) :
    (runETL db (cleanEnv (pre ++ RowEvent.scanned r (some w) :: rest))).table = db ∧
    (runETL db (cleanEnv (pre ++ RowEvent.scanned r (some w) :: rest))).count =
      (decodedRows pre).length ∧
    (runETL db (cleanEnv (pre ++ RowEvent.scanned r (some w) :: rest))).error =
      some (ETLError.execFailed w) ∧
    TxAction.rollbackTx ∈
      (runETL db (cleanEnv (pre ++ RowEvent.scanned r (some w) :: rest))).trace ∧
    TxAction.commitTx ∉
      (runETL db (cleanEnv (pre ++ RowEvent.scanned r (some w) :: rest))).trace := by
  have h : runETL db (cleanEnv (pre ++ RowEvent.scanned r (some w) :: rest)) =
      ⟨(decodedRows pre).length, some (ETLError.execFailed w), db,
        scanWarnings 0 pre ++ [LogEntry.insertFail (r.fsno.getD "")],
        TxAction.querySrc :: TxAction.beginTx :: TxAction.prepareStmt ::
          ((decodedRows pre).map TxAction.execRow ++ [TxAction.execRow r]) ++
            [TxAction.rollbackTx]⟩ :=
    runETL_hard db pre rest r w none none hpre
  rw [h]
  refine ⟨rfl, rfl, rfl, by simp, ?_⟩
  simp [List.mem_append, List.mem_map]

/-- C1 witness: a concrete run with one cleanly inserted row and a hard
error on the second decoded row. -/
theorem runETL_atomicity_witness :
    ([RowEvent.scanned (mkRow "A1") none].all (fun e => !eventHard e) = true) ∧
    ((runETL [(some "Z0", mkRow "Z0")]
        (cleanEnv ([RowEvent.scanned (mkRow "A1") none] ++
          RowEvent.scanned (mkRow "A2") (some "violation") :: []))).table =
      [(some "Z0", mkRow "Z0")] ∧
    (runETL [(some "Z0", mkRow "Z0")]
        (cleanEnv ([RowEvent.scanned (mkRow "A1") none] ++
          RowEvent.scanned (mkRow "A2") (some "violation") :: []))).count =
      (decodedRows [RowEvent.scanned (mkRow "A1") none]).length ∧
    (runETL [(some "Z0", mkRow "Z0")]
        (cleanEnv ([RowEvent.scanned (mkRow "A1") none] ++
          RowEvent.scanned (mkRow "A2") (some "violation") :: []))).error =
      some (ETLError.execFailed "violation") ∧
    TxAction.rollbackTx ∈
      (runETL [(some "Z0", mkRow "Z0")]
        (cleanEnv ([RowEvent.scanned (mkRow "A1") none] ++
          RowEvent.scanned (mkRow "A2") (some "violation") :: []))).trace ∧
    TxAction.commitTx ∉
      (runETL [(some "Z0", mkRow "Z0")]
        (cleanEnv ([RowEvent.scanned (mkRow "A1") none] ++
          RowEvent.scanned (mkRow "A2") (some "violation") :: []))).trace) :=
  ⟨by decide,
    runETL_atomicity [(some "Z0", mkRow "Z0")]
      [RowEvent.scanned (mkRow "A1") none] [] (mkRow "A2") "violation"
      (by decide)⟩

/-- C2: Idempotence of the load: when a run over a clean environment
commits, running runETL again over the same row events against the
already-loaded target returns no error (in particular no duplicate-key
error: every conflicting insert resolves by doing nothing), inserts zero
additional rows, and reports the same count. -/
theorem runETL_idempotent (db : Table) (evs : List RowEvent)
    (h1 : (runETL db (cleanEnv evs)).error = none) :
    (runETL (runETL db (cleanEnv evs)).table (cleanEnv evs)).error = none ∧
    (runETL (runETL db (cleanEnv evs)).table (cleanEnv evs)).table =
      (runETL db (cleanEnv evs)).table ∧
    (runETL (runETL db (cleanEnv evs)).table (cleanEnv evs)).count =
      (runETL db (cleanEnv evs)).count := by
  have hs : (loadLoop db 0 [] [] evs).hardErr = none := by
    rcases hh : (loadLoop db 0 [] [] evs).hardErr with _ | w
    · rfl
    · exfalso
      rw [show (runETL db (cleanEnv evs)).error = some (ETLError.execFailed w) from by
        simp [runETL, cleanEnv, hh]] at h1
      exact Option.noConfusion h1
  have hf := loadLoop_hardErr_none evs db 0 [] [] hs
  have e1 := runETL_clean db evs hf
  have e2 := runETL_clean (List.foldl execInsert db (decodedRows evs)) evs hf
  rw [e1]
  refine ⟨?_, ?_, ?_⟩
  · rw [show (ETLResult.mk (decodedRows evs).length none
      (List.foldl execInsert db (decodedRows evs)) (scanWarnings 0 evs)
      (TxAction.querySrc :: TxAction.beginTx :: TxAction.prepareStmt ::
        (decodedRows evs).map TxAction.execRow ++
          [TxAction.commitTx, TxAction.rollbackTx])).table =
      List.foldl execInsert db (decodedRows evs) from rfl, e2]
  · rw [show (ETLResult.mk (decodedRows evs).length none
      (List.foldl execInsert db (decodedRows evs)) (scanWarnings 0 evs)
      (TxAction.querySrc :: TxAction.beginTx :: TxAction.prepareStmt ::
        (decodedRows evs).map TxAction.execRow ++
          [TxAction.commitTx, TxAction.rollbackTx])).table =
      List.foldl execInsert db (decodedRows evs) from rfl, e2]
    exact foldl_execInsert_twice db (decodedRows evs)
  · rw [show (ETLResult.mk (decodedRows evs).length none
      (List.foldl execInsert db (decodedRows evs)) (scanWarnings 0 evs)
      (TxAction.querySrc :: TxAction.beginTx :: TxAction.prepareStmt ::
        (decodedRows evs).map TxAction.execRow ++
          [TxAction.commitTx, TxAction.rollbackTx])).table =
      List.foldl execInsert db (decodedRows evs) from rfl, e2]

/-- C2 witness: a committed one-row run, rerun against the loaded target. -/
theorem runETL_idempotent_witness :
    ((runETL [] (cleanEnv [RowEvent.scanned (mkRow "A1") none])).error = none) ∧
    ((runETL (runETL [] (cleanEnv [RowEvent.scanned (mkRow "A1") none])).table
        (cleanEnv [RowEvent.scanned (mkRow "A1") none])).error = none ∧
    (runETL (runETL [] (cleanEnv [RowEvent.scanned (mkRow "A1") none])).table
        (cleanEnv [RowEvent.scanned (mkRow "A1") none])).table =
      (runETL [] (cleanEnv [RowEvent.scanned (mkRow "A1") none])).table ∧
    (runETL (runETL [] (cleanEnv [RowEvent.scanned (mkRow "A1") none])).table
        (cleanEnv [RowEvent.scanned (mkRow "A1") none])).count =
      (runETL [] (cleanEnv [RowEvent.scanned (mkRow "A1") none])).count) :=
  ⟨by decide, runETL_idempotent [] [RowEvent.scanned (mkRow "A1") none] (by decide)⟩

/-- C3 counterexample: two concrete failing runs that differ in the
offending row's fsno ("A1" versus "C9") and in the number of rows
processed before the failure (0 versus 1) return the very same error
value, so the error runETL surfaces to its caller carries neither the
identity of the offending row nor the processed count.  The fsno is only
written to the log, and the count only travels in the separate integer
return value. -/
theorem runETL_error_context_counterexample :
    (runETL [] (cleanEnv
        [RowEvent.scanned (mkRow "A1") (some "disk full")])).error =
      (runETL [] (cleanEnv
        [RowEvent.scanned (mkRow "B7") none,
          RowEvent.scanned (mkRow "C9") (some "disk full")])).error ∧
    (mkRow "A1").fsno ≠ (mkRow "C9").fsno ∧
    (runETL [] (cleanEnv
        [RowEvent.scanned (mkRow "A1") (some "disk full")])).count ≠
      (runETL [] (cleanEnv
        [RowEvent.scanned (mkRow "B7") none,
          RowEvent.scanned (mkRow "C9") (some "disk full")])).count := by
  decide

/-- C3 (amended): on a hard insert failure runETL surfaces the count of
rows processed before the failure as its integer return value, surfaces
the offending row's fsno in the failure log line (the empty string when
the fsno holder is NULL), and returns the error that wraps the driver
error; the error value itself carries neither the fsno nor the count. -/
theorem runETL_failure_context (db : Table) (pre rest : List RowEvent)
    (r : DataRow) (w : DBErr)
    (hpre : pre.all (fun e => !eventHard e) = true) :
    (runETL db (cleanEnv (pre ++ RowEvent.scanned r (some w) :: rest))).count =
      (decodedRows pre).length ∧
    LogEntry.insertFail (r.fsno.getD "") ∈
      (runETL db (cleanEnv (pre ++ RowEvent.scanned r (some w) :: rest))).logs ∧
    (runETL db (cleanEnv (pre ++ RowEvent.scanned r (some w) :: rest))).error =
      some (ETLError.execFailed w) := by
  have h : runETL db (cleanEnv (pre ++ RowEvent.scanned r (some w) :: rest)) =
      ⟨(decodedRows pre).length, some (ETLError.execFailed w), db,
        scanWarnings 0 pre ++ [LogEntry.insertFail (r.fsno.getD "")],
        TxAction.querySrc :: TxAction.beginTx :: TxAction.prepareStmt ::
          ((decodedRows pre).map TxAction.execRow ++ [TxAction.execRow r]) ++
            [TxAction.rollbackTx]⟩ :=
    runETL_hard db pre rest r w none none hpre
  rw [h]
  refine ⟨rfl, ?_, rfl⟩
  simp

/-- C3 witness: a concrete failing run with one prior row. -/
theorem runETL_failure_context_witness :
    ([RowEvent.scanned (mkRow "A1") none].all (fun e => !eventHard e) = true) ∧
    ((runETL [] (cleanEnv ([RowEvent.scanned (mkRow "A1") none] ++
        RowEvent.scanned (mkRow "A2") (some "boom") :: []))).count =
      (decodedRows [RowEvent.scanned (mkRow "A1") none]).length ∧
    LogEntry.insertFail ((mkRow "A2").fsno.getD "") ∈
      (runETL [] (cleanEnv ([RowEvent.scanned (mkRow "A1") none] ++
        RowEvent.scanned (mkRow "A2") (some "boom") :: []))).logs ∧
    (runETL [] (cleanEnv ([RowEvent.scanned (mkRow "A1") none] ++
        RowEvent.scanned (mkRow "A2") (some "boom") :: []))).error =
      some (ETLError.execFailed "boom")) :=
  ⟨by decide,
    runETL_failure_context [] [RowEvent.scanned (mkRow "A1") none] []
      (mkRow "A2") "boom" (by decide)⟩

/-- C4: Row-skip isolation: over any event sequence free of hard insert
errors, the run commits (no error), every decoded row is loaded —
the committed table is the fold of the insert over exactly the decoded
rows, the scan-failed rows and nothing else being dropped — the count is
the number of decoded rows (excluding exactly the skipped ones), and one
scan-skip warning is logged per failed scan. -/
theorem runETL_row_skip_isolation (db : Table) (evs : List RowEvent)
    (h : evs.all (fun e => !eventHard e) = true) :
    (runETL db (cleanEnv evs)).error = none ∧
    (runETL db (cleanEnv evs)).table =
      List.foldl execInsert db (decodedRows evs) ∧
    (runETL db (cleanEnv evs)).count = (decodedRows evs).length ∧
    ((runETL db (cleanEnv evs)).logs.filter isScanSkipLog).length =
      (evs.filter isScanFail).length := by
  rw [runETL_clean db evs h]
  exact ⟨rfl, rfl, rfl, scanWarnings_filter_length evs 0⟩

/-- C4 witness: a failed scan sandwiched between two good rows. -/
theorem runETL_row_skip_isolation_witness :
    ([RowEvent.scanned (mkRow "A1") none, RowEvent.scanFail "bad type",
        RowEvent.scanned (mkRow "A3") none].all (fun e => !eventHard e) = true) ∧
    ((runETL [] (cleanEnv [RowEvent.scanned (mkRow "A1") none,
        RowEvent.scanFail "bad type",
        RowEvent.scanned (mkRow "A3") none])).error = none ∧
    (runETL [] (cleanEnv [RowEvent.scanned (mkRow "A1") none,
        RowEvent.scanFail "bad type",
        RowEvent.scanned (mkRow "A3") none])).table =
      List.foldl execInsert []
        (decodedRows [RowEvent.scanned (mkRow "A1") none,
          RowEvent.scanFail "bad type",
          RowEvent.scanned (mkRow "A3") none]) ∧
    (runETL [] (cleanEnv [RowEvent.scanned (mkRow "A1") none,
        RowEvent.scanFail "bad type",
        RowEvent.scanned (mkRow "A3") none])).count =
      (decodedRows [RowEvent.scanned (mkRow "A1") none,
        RowEvent.scanFail "bad type",
        RowEvent.scanned (mkRow "A3") none]).length ∧
    ((runETL [] (cleanEnv [RowEvent.scanned (mkRow "A1") none,
        RowEvent.scanFail "bad type",
        RowEvent.scanned (mkRow "A3") none])).logs.filter isScanSkipLog).length =
      ([RowEvent.scanned (mkRow "A1") none, RowEvent.scanFail "bad type",
        RowEvent.scanned (mkRow "A3") none].filter isScanFail).length) :=
  ⟨by decide,
    runETL_row_skip_isolation []
      [RowEvent.scanned (mkRow "A1") none, RowEvent.scanFail "bad type",
        RowEvent.scanned (mkRow "A3") none] (by decide)⟩

/-- C5: Count semantics: over any event sequence free of hard insert
errors, whatever the target's prior contents (so conflict-skipped
inserts count as processed) and whatever happens at rows.Err or Commit,
runETL returns exactly the number of successfully-decoded rows handed to
the statement; scan-failed rows are not counted. -/
theorem runETL_count_semantics (db : Table) (evs : List RowEvent)
    (re ce : Option DBErr)
    (h : evs.all (fun e => !eventHard e) = true) :
    (runETL db ⟨none, none, none, evs, re, ce⟩).count =
      (decodedRows evs).length := by
  cases re <;> cases ce <;>
    simp [runETL, loadLoop_hardFree evs db 0 [] [] h]

/-- C5 witness: a conflicting row (fsno already present), a scan failure
and a fresh row: the count is 2, counting the conflict and not the skip. -/
theorem runETL_count_semantics_witness :
    ([RowEvent.scanned (mkRow "A1") none, RowEvent.scanFail "bad",
        RowEvent.scanned (mkRow "A2") none].all (fun e => !eventHard e) = true) ∧
    (runETL [(some "A1", mkRow "A1")]
        ⟨none, none, none,
          [RowEvent.scanned (mkRow "A1") none, RowEvent.scanFail "bad",
            RowEvent.scanned (mkRow "A2") none], none, none⟩).count =
      (decodedRows [RowEvent.scanned (mkRow "A1") none, RowEvent.scanFail "bad",
        RowEvent.scanned (mkRow "A2") none]).length :=
  ⟨by decide,
    runETL_count_semantics [(some "A1", mkRow "A1")]
      [RowEvent.scanned (mkRow "A1") none, RowEvent.scanFail "bad",
        RowEvent.scanned (mkRow "A2") none] none none (by decide)⟩

/-- C6: Null pass-through: after a committed run, every row stored in
the target either was there before the run or is literally one of the
decoded rows, stored unchanged under its fsno — every field that was
absent (SQL NULL) at decode time is still absent in the stored row,
never replaced by a zero, empty-string or other default. -/
theorem runETL_null_passthrough (db : Table) (evs : List RowEvent)
    (h : evs.all (fun e => !eventHard e) = true)
    (k : Option String) (v : DataRow)
    (hmem : (k, v) ∈ (runETL db (cleanEnv evs)).table) :
    (k, v) ∈ db ∨ (v ∈ decodedRows evs ∧ v.fsno = k) := by
  rw [runETL_clean db evs h] at hmem
  rcases mem_foldl_execInsert (decodedRows evs) db (k, v) hmem with h' | h'
  · exact Or.inl h'
  · exact Or.inr h'

/-- C6 witness: a row with every non-key field NULL is stored exactly as
decoded. -/
theorem runETL_null_passthrough_witness :
    ([RowEvent.scanned (mkRow "A2") none].all (fun e => !eventHard e) = true) ∧
    ((some "A2", mkRow "A2") ∈
      (runETL [] (cleanEnv [RowEvent.scanned (mkRow "A2") none])).table) ∧
    ((some "A2", mkRow "A2") ∈ ([] : Table) ∨
      (mkRow "A2" ∈ decodedRows [RowEvent.scanned (mkRow "A2") none] ∧
        (mkRow "A2").fsno = some "A2")) :=
  ⟨by decide, by decide,
    runETL_null_passthrough [] [RowEvent.scanned (mkRow "A2") none]
      (by decide) (some "A2") (mkRow "A2") (by decide)⟩

/-- C7: Extraction start failure is fatal and early: when the source
query fails, runETL returns count 0 together with the query-wrapping
error, the target table is untouched, no log line is emitted, the call
trace holds nothing but the attempted source query — independent of
every downstream environment value, so no row is processed — and in
particular no target transaction is ever begun. -/
theorem runETL_query_failure (db : Table) (w : DBErr) (b p : Option DBErr)
    (evs : List RowEvent) (re ce : Option DBErr) :
    runETL db ⟨some w, b, p, evs, re, ce⟩ =
      ⟨0, some (ETLError.queryFailed w), db, [], [TxAction.querySrc]⟩ ∧
    TxAction.beginTx ∉ (runETL db ⟨some w, b, p, evs, re, ce⟩).trace :=
  ⟨rfl, by simp [runETL]⟩

set_option maxRecDepth 16384 in
/-- C8: Deterministic extraction order: the extraction query is exactly
the SELECT of the twelve columns from the Sales table ordered by fsno,
and the modeled semantics of that ORDER BY returns a permutation of the
source rows sorted ascending by the fsno key; extraction being a
function of the source table, two runs over an unchanged source visit
rows in the identical (sorted) order. -/
theorem extractQuery_ordered_deterministic :
    extractQuery =
      "\n\t\tSELECT fsno, salestype, attachmentno, customer, region, date, code, name, measurementunit, unitprice, soldquantity, netpay\n\t\tFROM Sales ORDER BY fsno" ∧
    extractQuery =
      "\n\t\tSELECT fsno, salestype, attachmentno, customer, region, date, code, name, measurementunit, unitprice, soldquantity, netpay\n\t\tFROM Sales"
        ++ " ORDER BY fsno" ∧
    (∀ src : List DataRow, List.Sorted fsnoRel (modelExtract src)) ∧
    (∀ src : List DataRow, List.Perm (modelExtract src) src) := by
  refine ⟨rfl, rfl, ?_, ?_⟩
  · intro src
    exact List.sorted_insertionSort fsnoRel src
  · intro src
    exact List.perm_insertionSort fsnoRel src

set_option maxRecDepth 16384 in
/-- C9: Positional column invariant: the select list of the extraction
query, the rows.Scan destinations, the column list of the insert
statement and its positional placeholders all have length 12 and denote
the twelve logical fields in the same order, so position i of the scan
is bound to position i of the insert and lands in the target column of
the same field; and the two SQL strings are exactly the intercalations
of those lists. -/
theorem positional_column_invariant :
    selectColumns.length = 12 ∧
    insertColumns.length = 12 ∧
    insertPlaceholders.length = 12 ∧
    scanDestFields.length = 12 ∧
    execArgFields.length = 12 ∧
    selectColumns.map sourceColField = fieldOrder.map some ∧
    insertColumns.map targetColField = fieldOrder.map some ∧
    scanDestFields = fieldOrder ∧
    execArgFields = fieldOrder ∧
    extractQuery =
      "\n\t\tSELECT " ++ String.intercalate ", " selectColumns ++
        "\n\t\tFROM " ++ sourceTableName ++ " ORDER BY fsno" ∧
    insertSQL =
      "\n\t\tINSERT INTO " ++ targetTableName ++ " (" ++
        String.intercalate ", " insertColumns ++ ")\n\t\tVALUES (" ++
        String.intercalate ", " insertPlaceholders ++
        ")\n\t\tON CONFLICT (fsno) DO NOTHING" := by
  decide

/-- C10: Empty-source edge case: with zero row events and a
well-behaved environment, runETL still issues the query, begins the
transaction, prepares the statement and commits (the trace shows all
four, the final deferred rollback being the post-commit no-op), and
returns count 0, no error, no log line, and an unchanged target table. -/
theorem runETL_empty_source (db : Table) :
    runETL db (cleanEnv []) =
      ⟨0, none, db, [],
        [TxAction.querySrc, TxAction.beginTx, TxAction.prepareStmt,
          TxAction.commitTx, TxAction.rollbackTx]⟩ :=
  rfl
